import Mathlib

/-!
Shallow embedding of `scripts/generate-contrib-svg.mjs`, a batch generator
that renders a GitHub-style contribution calendar as an SVG string.  The
repository file holds two variants of the script; the first (with header,
summary text and legend) is embedded in full, and the second variant's
quantization, palette and renderer are embedded alongside with an `Alt` /
`2` suffix.  JavaScript strings are modelled as Lean `String` / `List Char`,
JS non-negative numbers as `Nat`, and the template literals as explicit
string concatenation in source order.
-/

/-- Decimal digits of a JS number `String(n)` for a non-negative integer,
fuel-based so that it is kernel-reducible.  Mirrors the standard
divide-by-ten digit recursion used by number-to-string conversion. -/
def digitsAux : Nat → Nat → List Char
  | 0, _ => []
  | fuel + 1, n =>
    if n < 10 then [Nat.digitChar n]
    else digitsAux fuel (n / 10) ++ [Nat.digitChar (n % 10)]

/-- The decimal representation of `n`, as a list of characters (JS `String(n)`). -/
def jsDigits (n : Nat) : List Char := digitsAux (n + 1) n

/-- JS `String(n)` / template-literal insertion `${n}` for a non-negative number. -/
def jsStr (n : Nat) : String := String.mk (jsDigits n)

/-- JS `String.prototype.replaceAll(pat, rep)` specialised to a single-character
pattern: every occurrence of the character `pat` is replaced by `rep`. -/
def replaceAllChar (pat : Char) (rep : List Char) : List Char → List Char
  | [] => []
  | c :: cs => (if c = pat then rep else [c]) ++ replaceAllChar pat rep cs

/-- JS `String.prototype.split(sep)` specialised to a one-character separator. -/
def splitOnChar (sep : Char) : List Char → List (List Char)
  | [] => [[]]
  | c :: cs =>
    if c = sep then [] :: splitOnChar sep cs
    else
      match splitOnChar sep cs with
      | [] => [[c]]
      | r :: rs => (c :: r) :: rs

/-- JS `Number(s)` on a string of decimal digits (the only shape this script
feeds it: the components of an ISO `YYYY-MM-DD` date). -/
def parseNat (l : List Char) : Nat :=
  l.foldl (fun acc c => acc * 10 + (c.toNat - '0'.toNat)) 0

/-- `const USERNAME = "fiona-cai"` -/
def USERNAME : String := "fiona-cai"

/-- `const PALETTE = [...]` of the first variant: no activity, then lowest → highest. -/
def PALETTE : List String :=
  ["#97BAA9", "#ABCCA3", "#C8D9AA", "#F3DEB4", "#FBD2C6"]

/-- `const PALETTE = [...]` of the second variant (light → dark, 4 colors). -/
def PALETTE2 : List String :=
  ["#EFCAD1", "#E9B8C1", "#C0D9BA", "#ABCCA3"]

/-- `const CELL = 11` -/
def CELL : Nat := 11

/-- `const GAP = 2` -/
def GAP : Nat := 2

/-- `const WEEKS = 53` -/
def WEEKS : Nat := 53

/-- `const DAYS = 7` -/
def DAYS : Nat := 7

/-- `const PAD_X = 10` -/
def PAD_X : Nat := 10

/-- `const PAD_Y = 10` -/
def PAD_Y : Nat := 10

/-- `const HEADER_HEIGHT = 24` (first variant only) -/
def HEADER_HEIGHT : Nat := 24

/-- `const LEGEND_HEIGHT = 28` (first variant only) -/
def LEGEND_HEIGHT : Nat := 28

/-- `function levelFromCount(count)` of the first variant: quantizes an
activity count into a palette index 0‥4. -/
def levelFromCount (count : Nat) : Nat :=
  if count = 0 then 0
  else if count ≤ 2 then 1
  else if count ≤ 5 then 2
  else if count ≤ 9 then 3
  else 4

/-- `function levelFromCount(count)` of the second variant: palette index 0‥3. -/
def levelFromCountAlt (count : Nat) : Nat :=
  if count = 0 then 0
  else if count ≤ 2 then 1
  else if count ≤ 6 then 2
  else 3

/-- `function svgEscape(s)`: the chain
`.replaceAll("&","&amp;").replaceAll("<","&lt;").replaceAll(">","&gt;").replaceAll('"',"&quot;")`
applied to the character list of `s`, innermost first as in the source. -/
def svgEscapeL (l : List Char) : List Char :=
  replaceAllChar '"' "&quot;".data
    (replaceAllChar '>' "&gt;".data
      (replaceAllChar '<' "&lt;".data
        (replaceAllChar '&' "&amp;".data l)))

/-- `function svgEscape(s)` on strings. -/
def svgEscape (s : String) : String := String.mk (svgEscapeL s.data)

/-- `const MONTHS = [...]` -/
def MONTHS : List String :=
  ["January", "February", "March", "April", "May", "June", "July",
   "August", "September", "October", "November", "December"]

/-- `function ordinal(n)`: appends the English ordinal suffix chosen by
inspecting the decimal string of `n` (`s.endsWith("11") || ...` first, then
the single-digit endings).  `List.isSuffixOf` is the JS `endsWith` on the
character list. -/
def ordinal (n : Nat) : String :=
  let s := jsDigits n
  if ("11".data.isSuffixOf s || "12".data.isSuffixOf s || "13".data.isSuffixOf s) then
    String.mk (s ++ "th".data)
  else if "1".data.isSuffixOf s then String.mk (s ++ "st".data)
  else if "2".data.isSuffixOf s then String.mk (s ++ "nd".data)
  else if "3".data.isSuffixOf s then String.mk (s ++ "rd".data)
  else String.mk (s ++ "th".data)

/-- `function formatTooltipDate(dateStr, count)`: empty input gives the empty
string (JS `if (!dateStr) return ""`); otherwise the date is split on `-`,
month and day are parsed (`.map(Number)` destructured to `[y, m, d]`), and the
tooltip `"<count> contribution(s) on <Month> <ordinal day>"` is produced.
`MONTHS[m - 1]` is `undefined` (inserted as the text `"undefined"`) exactly
when `m - 1` is outside `0‥11`, i.e. when `m` is outside `1‥12` for `m : Nat`. -/
def formatTooltipDate (dateStr : String) (count : Nat) : String :=
  if dateStr = "" then ""
  else
    let nums := (splitOnChar '-' dateStr.data).map parseNat
    let m := nums.getD 1 0
    let d := nums.getD 2 0
    let month := if 1 ≤ m ∧ m ≤ 12 then MONTHS.getD (m - 1) "" else "undefined"
    jsStr count ++ " contribution" ++ (if count = 1 then "" else "s") ++
      " on " ++ month ++ " " ++ ordinal d

/-- One day record of the API response: `{ date, contributionCount, weekday }`. -/
structure ContributionDay where
  date : String
  contributionCount : Nat
  weekday : Nat
deriving DecidableEq

/-- One week of the API response: `{ contributionDays: [...] }`. -/
structure Week where
  contributionDays : List ContributionDay
deriving DecidableEq

/-- The `contributionCalendar` object: week list plus the optional
`totalContributions` (absent in the second variant's query). -/
structure Calendar where
  weeks : List Week
  totalContributions : Option Nat
deriving DecidableEq

/-- The empty week `{ contributionDays: [] }` used for padding. -/
def emptyWeek : Week := ⟨[]⟩

/-- The normalization prologue of `renderSVG` (identical in both variants):
`while (paddedWeeks.length < WEEKS) paddedWeeks.unshift({contributionDays: []});`
prepends empty weeks until the length reaches `WEEKS`, and
`if (paddedWeeks.length > WEEKS) paddedWeeks.splice(0, paddedWeeks.length - WEEKS);`
then removes the excess from the front. -/
def normalizeWeeks (ws : List Week) : List Week :=
  let p := List.replicate (WEEKS - ws.length) emptyWeek ++ ws
  if WEEKS < p.length then p.drop (p.length - WEEKS) else p

/-- The per-cell lookup `byWeekday.get(y)` after
`for (const d of days) byWeekday.set(d.weekday, d)`: a JS `Map` keeps the last
value set for a key, so the result is the last entry of `days` whose
`weekday` equals `y`, if any. -/
def resolveDay (days : List ContributionDay) (y : Nat) : Option ContributionDay :=
  days.foldl (fun acc d => if d.weekday = y then some d else acc) none

/-- `const count = day?.contributionCount ?? 0` -/
def cellCount (day : Option ContributionDay) : Nat :=
  match day with
  | some d => d.contributionCount
  | none => 0

/-- `const date = day?.date ?? ""` -/
def cellDate (day : Option ContributionDay) : String :=
  match day with
  | some d => d.date
  | none => ""

/-- The tooltip child of a cell:
`${title ? `<title>...</title>` : ""}` inside the rect template literal. -/
def titleMarkup (title : String) : String :=
  if title = "" then "" else "<title>" ++ svgEscape title ++ "</title>"

/-- `const gridOffsetY = HEADER_HEIGHT + PAD_Y` (first variant). -/
def gridOffsetY : Nat := HEADER_HEIGHT + PAD_Y

/-- One iteration of the inner loop of the first variant's `renderSVG`: the
rect template literal appended to `rects` for column `x`, row `y`, given the
resolved day record.  `rx = 2`; `title` is `date ? formatTooltipDate(date, count) : ""`. -/
def renderCell (x y : Nat) (day : Option ContributionDay) : String :=
  let count := cellCount day
  let date := cellDate day
  let fill := PALETTE.getD (levelFromCount count) ""
  let px := PAD_X + x * (CELL + GAP)
  let py := gridOffsetY + y * (CELL + GAP)
  let title := if date = "" then "" else formatTooltipDate date count
  "\n  <rect x=\"" ++ jsStr px ++ "\" y=\"" ++ jsStr py ++ "\" width=\"" ++
    jsStr CELL ++ "\" height=\"" ++ jsStr CELL ++
    "\" rx=\"2\" ry=\"2\" fill=\"" ++ fill ++ "\">\n    " ++
    titleMarkup title ++ "\n  </rect>"

/-- String accumulation `acc += f x` over a loop counter list. -/
def joinMap (f : Nat → String) : List Nat → String
  | [] => ""
  | x :: xs => f x ++ joinMap f xs

/-- The inner `for (let y = 0; y < DAYS; y++)` loop of the first variant. -/
def weekRects (x : Nat) (w : Week) : String :=
  joinMap (fun y => renderCell x y (resolveDay w.contributionDays y)) (List.range DAYS)

/-- The outer `for (let x = 0; x < WEEKS; x++)` loop of the first variant:
`paddedWeeks[x]` is total because normalization fixes the length at `WEEKS`. -/
def rectsFor (ws : List Week) : String :=
  joinMap (fun x => weekRects x (ws.getD x emptyWeek)) (List.range WEEKS)

/-- `const gridWidth = PAD_X * 2 + WEEKS * CELL + (WEEKS - 1) * GAP` -/
def gridWidth : Nat := PAD_X * 2 + WEEKS * CELL + (WEEKS - 1) * GAP

/-- `const gridHeight = PAD_Y * 2 + DAYS * CELL + (DAYS - 1) * GAP` -/
def gridHeight : Nat := PAD_Y * 2 + DAYS * CELL + (DAYS - 1) * GAP

/-- `const width = gridWidth` (first variant). -/
def svgWidth : Nat := gridWidth

/-- `const height = HEADER_HEIGHT + gridHeight + LEGEND_HEIGHT` (first variant). -/
def svgHeight : Nat := HEADER_HEIGHT + gridHeight + LEGEND_HEIGHT

/-- `const bg = "transparent"` -/
def bg : String := "transparent"

/-- `const textColor = "#8b949e"` (first variant). -/
def textColor : String := "#8b949e"

/-- `const summaryText = `${totalContributions} contribution${...} in the last year`` -/
def summaryText (total : Nat) : String :=
  jsStr total ++ " contribution" ++ (if total = 1 then "" else "s") ++
    " in the last year"

/-- `const legendY = height - 14` -/
def legendY : Nat := svgHeight - 14

/-- `const legendSwatchSize = 10` -/
def legendSwatchSize : Nat := 10

/-- `const legendGap = 2` -/
def legendGap : Nat := 2

/-- `const legendStartX = width - 120` -/
def legendStartX : Nat := svgWidth - 120

/-- The `legendSwatches` accumulation loop of the first variant. -/
def legendSwatchesStr : String :=
  joinMap
    (fun i =>
      "\n  <rect x=\"" ++ jsStr (legendStartX + i * (legendSwatchSize + legendGap)) ++
        "\" y=\"" ++ jsStr (legendY - legendSwatchSize + 2) ++
        "\" width=\"" ++ jsStr legendSwatchSize ++
        "\" height=\"" ++ jsStr legendSwatchSize ++
        "\" rx=\"2\" ry=\"2\" fill=\"" ++ PALETTE.getD i "" ++ "\"/>")
    (List.range PALETTE.length)

/-- The data-independent opening of the first variant's returned template
literal: XML prolog, `<svg>` tag with `width`, `height`, `viewBox` and
`aria-label`, background rect, and the summary `<text>` element up to the
point where the escaped summary text is inserted. -/
def svgOpen : String :=
  "<?xml version=\"1.0\" encoding=\"UTF-8\"?>\n<svg width=\"" ++ jsStr svgWidth ++
    "\" height=\"" ++ jsStr svgHeight ++ "\"\n     viewBox=\"0 0 " ++
    jsStr svgWidth ++ " " ++ jsStr svgHeight ++
    "\"\n     xmlns=\"http://www.w3.org/2000/svg\"\n     role=\"img\"\n     aria-label=\"GitHub contributions graph for " ++
    USERNAME ++ "\">\n  <rect width=\"100%\" height=\"100%\" fill=\"" ++ bg ++
    "\" />\n  <text x=\"0\" y=\"16\" font-family=\"system-ui, -apple-system, sans-serif\" font-size=\"12\" fill=\"" ++
    textColor ++ "\">"

/-- The fixed text between the inserted summary and the inserted `rects`. -/
def afterSummary : String := "</text>\n  <g>\n    "

/-- The fixed tail of the first variant's template after `rects`: closing
`</g>`, the `Less` label, the legend swatches, the `More` label and `</svg>`. -/
def afterRects : String :=
  "\n  </g>\n  <text x=\"" ++ jsStr (legendStartX - 32) ++ "\" y=\"" ++
    jsStr legendY ++
    "\" font-family=\"system-ui, -apple-system, sans-serif\" font-size=\"9\" fill=\"" ++
    textColor ++ "\">Less</text>\n  " ++ legendSwatchesStr ++
    "\n  <text x=\"" ++
    jsStr (legendStartX + PALETTE.length * (legendSwatchSize + legendGap) + 6) ++
    "\" y=\"" ++ jsStr legendY ++
    "\" font-family=\"system-ui, -apple-system, sans-serif\" font-size=\"9\" fill=\"" ++
    textColor ++ "\">More</text>\n</svg>\n"

/-- `function renderSVG(calendar)` of the first variant: normalization, the
rect loops and the returned template literal, with
`const totalContributions = calendar.totalContributions ?? 0`. -/
def renderSVG (calendar : Calendar) : String :=
  let paddedWeeks := normalizeWeeks calendar.weeks
  let totalContributions := calendar.totalContributions.getD 0
  svgOpen ++ svgEscape (summaryText totalContributions) ++ afterSummary ++
    rectsFor paddedWeeks ++ afterRects

/-- `const height = PAD_Y * 2 + DAYS * CELL + (DAYS - 1) * GAP` of the second
variant (no header or legend band; its width formula matches `gridWidth`). -/
def svgHeight2 : Nat := PAD_Y * 2 + DAYS * CELL + (DAYS - 1) * GAP

/-- One iteration of the inner rect loop of the second variant:
`py = PAD_Y + y * (CELL + GAP)`, fill from `PALETTE2` via the second
`levelFromCount`, and the date-prefixed tooltip
`${date}: ${count} contribution${...}`. -/
def renderCell2 (x y : Nat) (day : Option ContributionDay) : String :=
  let count := cellCount day
  let date := cellDate day
  let fill := PALETTE2.getD (levelFromCountAlt count) ""
  let px := PAD_X + x * (CELL + GAP)
  let py := PAD_Y + y * (CELL + GAP)
  let title :=
    if date = "" then ""
    else date ++ ": " ++ jsStr count ++ " contribution" ++
      (if count = 1 then "" else "s")
  "\n  <rect x=\"" ++ jsStr px ++ "\" y=\"" ++ jsStr py ++ "\" width=\"" ++
    jsStr CELL ++ "\" height=\"" ++ jsStr CELL ++
    "\" rx=\"2\" ry=\"2\" fill=\"" ++ fill ++ "\">\n    " ++
    titleMarkup title ++ "\n  </rect>"

/-- The nested rect loops of the second variant. -/
def rectsFor2 (ws : List Week) : String :=
  joinMap
    (fun x =>
      joinMap
        (fun y => renderCell2 x y (resolveDay (ws.getD x emptyWeek).contributionDays y))
        (List.range DAYS))
    (List.range WEEKS)

/-- The data-independent opening of the second variant's template literal,
up to the point where `rects` is inserted. -/
def svgOpen2 : String :=
  "<?xml version=\"1.0\" encoding=\"UTF-8\"?>\n<svg width=\"" ++ jsStr gridWidth ++
    "\" height=\"" ++ jsStr svgHeight2 ++ "\"\n     viewBox=\"0 0 " ++
    jsStr gridWidth ++ " " ++ jsStr svgHeight2 ++
    "\"\n     xmlns=\"http://www.w3.org/2000/svg\"\n     role=\"img\"\n     aria-label=\"GitHub contributions graph for " ++
    USERNAME ++ "\">\n  <rect width=\"100%\" height=\"100%\" fill=\"" ++ bg ++
    "\" />\n  <g>\n    "

/-- `function renderSVG(calendar)` of the second variant. -/
def renderSVG2 (calendar : Calendar) : String :=
  let paddedWeeks := normalizeWeeks calendar.weeks
  svgOpen2 ++ rectsFor2 paddedWeeks ++ "\n  </g>\n</svg>\n"

/-- `async function main()` with the I/O boundary made explicit: `ghToken` is
`process.env.GH_TOKEN` (`none` when the variable is absent) and `fetchResult`
stands for the awaited `fetchCalendar` exchange (which can reject).  The
guard `if (!token) throw new Error("Missing GH_TOKEN env var.")` fires on an
absent or empty token before `fetchCalendar` is consulted; otherwise the
calendar is fetched, rendered and the SVG written (here: returned). -/
def mainModel (ghToken : Option String)
    (fetchResult : String → Except String Calendar) : Except String String :=
  match ghToken with
  | none => Except.error "Missing GH_TOKEN env var."
  | some token =>
    if token = "" then Except.error "Missing GH_TOKEN env var."
    else
      match fetchResult token with
      | Except.error e => Except.error e
      | Except.ok cal => Except.ok (renderSVG cal)

/-- The top-level `main().catch(err => { console.error(err); process.exit(1) })`:
a rejected run exits with code 1, a completed run with code 0. -/
def exitCode : Except String String → Nat
  | Except.error _ => 1
  | Except.ok _ => 0

/-- Per-character view of `svgEscape`: what one input character contributes
to the escaped output. -/
def escChar (c : Char) : List Char :=
  if c = '&' then "&amp;".data
  else if c = '<' then "&lt;".data
  else if c = '>' then "&gt;".data
  else if c = '"' then "&quot;".data
  else [c]

/-- The four entities `svgEscape` may emit. -/
def entityList : List (List Char) :=
  ["&amp;".data, "&lt;".data, "&gt;".data, "&quot;".data]

/-- Well-formedness of ampersands in a character list: every occurrence of
`&` begins one of the four entities. -/
def ampWellFormed : List Char → Bool
  | [] => true
  | c :: cs =>
    (if c = '&' then entityList.any (fun e => e.isPrefixOf (c :: cs)) else true) &&
      ampWellFormed cs

/-- Modelled from the spec's ordinal rule, in arithmetic form, as the
refinement target for the string-inspecting `ordinal` of the code: numbers
ending in 11, 12 or 13 take `th`; otherwise last digit 1, 2, 3 take `st`,
`nd`, `rd`; all other numbers take `th`. -/
def ordSuffixSpec (n : Nat) : String :=
  if (n % 100 = 11 ∨ n % 100 = 12) ∨ n % 100 = 13 then "th"
  else if n % 10 = 1 then "st"
  else if n % 10 = 2 then "nd"
  else if n % 10 = 3 then "rd"
  else "th"

/-- The rect markup of the first variant with an empty title slot: what
`renderCell` produces when the tooltip condition is falsy, so the emitted
rect element has no `title` child at all. -/
def bareRect (x y : Nat) (fill : String) : String :=
  "\n  <rect x=\"" ++ jsStr (PAD_X + x * (CELL + GAP)) ++ "\" y=\"" ++
    jsStr (gridOffsetY + y * (CELL + GAP)) ++ "\" width=\"" ++ jsStr CELL ++
    "\" height=\"" ++ jsStr CELL ++ "\" rx=\"2\" ry=\"2\" fill=\"" ++ fill ++
    "\">\n    " ++ "" ++ "\n  </rect>"

/-- Substring occurrence check: does `small` occur contiguously in `big`? -/
def containsCheck (small : List Char) : List Char → Bool
  | [] => small.isEmpty
  | c :: cs => small.isPrefixOf (c :: cs) || containsCheck small cs

/-- `containsStr big small = true` iff `small` occurs contiguously in `big`. -/
def containsStr (big small : String) : Bool :=
  containsCheck small.data big.data

theorem isPrefixOf_iff_ex : ∀ p l : List Char, p.isPrefixOf l = true ↔ ∃ t, l = p ++ t
  | [], l => by simp [List.isPrefixOf]
  | a :: as, [] => by simp [List.isPrefixOf]
  | a :: as, b :: bs => by
    simp only [List.isPrefixOf, Bool.and_eq_true, beq_iff_eq, isPrefixOf_iff_ex as bs,
      List.cons_append, List.cons.injEq]
    constructor
    · rintro ⟨rfl, t, rfl⟩; exact ⟨t, rfl, rfl⟩
    · rintro ⟨t, rfl, rfl⟩; exact ⟨rfl, t, rfl⟩

theorem isSuffixOf_iff_ex (p l : List Char) : p.isSuffixOf l = true ↔ ∃ t, l = t ++ p := by
  simp only [List.isSuffixOf, isPrefixOf_iff_ex]
  constructor
  · rintro ⟨t, ht⟩
    refine ⟨t.reverse, ?_⟩
    have := congrArg List.reverse ht
    simpa using this
  · rintro ⟨t, rfl⟩
    exact ⟨t.reverse, by simp⟩

theorem containsCheck_iff : ∀ (m b : List Char),
    containsCheck m b = true ↔ ∃ s t, b = s ++ m ++ t
  | m, [] => by
    simp only [containsCheck, List.isEmpty_iff]
    constructor
    · rintro rfl; exact ⟨[], [], rfl⟩
    · rintro ⟨s, t, h⟩
      rcases List.append_eq_nil.mp h.symm with ⟨h1, h2⟩
      exact (List.append_eq_nil.mp h1).2
  | m, c :: cs => by
    simp only [containsCheck, Bool.or_eq_true, isPrefixOf_iff_ex,
      containsCheck_iff m cs]
    constructor
    · rintro (⟨t, ht⟩ | ⟨s, t, ht⟩)
      · exact ⟨[], t, by simpa using ht⟩
      · exact ⟨c :: s, t, by simp [ht]⟩
    · rintro ⟨s, t, ht⟩
      cases s with
      | nil => exact Or.inl ⟨t, by simpa using ht⟩
      | cons s0 ss =>
        right
        rcases List.cons.injEq .. ▸ ht with ⟨rfl, hrest⟩
        exact ⟨ss, t, hrest⟩

theorem containsStr_iff (big small : String) :
    containsStr big small = true ↔ ∃ s t, big.data = s ++ small.data ++ t :=
  containsCheck_iff small.data big.data

theorem containsStr_self (a : String) : containsStr a a = true :=
  (containsStr_iff a a).mpr ⟨[], [], by simp⟩

theorem containsStr_append_of_left {a m : String} (b : String)
    (h : containsStr a m = true) : containsStr (a ++ b) m = true := by
  rcases (containsStr_iff a m).mp h with ⟨s, t, ht⟩
  exact (containsStr_iff (a ++ b) m).mpr
    ⟨s, t ++ b.data, by simp [String.data_append, ht]⟩

theorem containsStr_append_of_right {b m : String} (a : String)
    (h : containsStr b m = true) : containsStr (a ++ b) m = true := by
  rcases (containsStr_iff b m).mp h with ⟨s, t, ht⟩
  exact (containsStr_iff (a ++ b) m).mpr
    ⟨a.data ++ s, t, by simp [String.data_append, ht]⟩

theorem containsStr_joinMap {f : Nat → String} {x : Nat} :
    ∀ {xs : List Nat}, x ∈ xs → containsStr (joinMap f xs) (f x) = true
  | [], h => absurd h (List.not_mem_nil x)
  | y :: ys, h => by
    rcases List.mem_cons.mp h with rfl | hmem
    · exact containsStr_append_of_left (joinMap f ys) (containsStr_self (f x))
    · exact containsStr_append_of_right (f y) (containsStr_joinMap hmem)

theorem containsStr_trans {a b m : String} (hab : containsStr a b = true)
    (hbm : containsStr b m = true) : containsStr a m = true := by
  rcases (containsStr_iff a b).mp hab with ⟨s, t, ht⟩
  rcases (containsStr_iff b m).mp hbm with ⟨u, v, hv⟩
  exact (containsStr_iff a m).mpr ⟨s ++ u, v ++ t, by simp [ht, hv]⟩

theorem normalizeWeeks_le (ws : List Week) (h : ws.length ≤ WEEKS) :
    normalizeWeeks ws = List.replicate (WEEKS - ws.length) emptyWeek ++ ws := by
  unfold normalizeWeeks
  have hc : ¬ WEEKS < (List.replicate (WEEKS - ws.length) emptyWeek ++ ws).length := by
    simp only [List.length_append, List.length_replicate]; omega
  simp [hc]
  intro hlt
  exfalso
  omega

theorem normalizeWeeks_gt (ws : List Week) (h : WEEKS < ws.length) :
    normalizeWeeks ws = ws.drop (ws.length - WEEKS) := by
  unfold normalizeWeeks
  have hz : WEEKS - ws.length = 0 := by omega
  rw [hz]
  simp [h]

theorem normalizeWeeks_length (ws : List Week) : (normalizeWeeks ws).length = WEEKS := by
  by_cases h : ws.length ≤ WEEKS
  · rw [normalizeWeeks_le ws h]
    simp only [List.length_append, List.length_replicate]
    omega
  · rw [normalizeWeeks_gt ws (by omega)]
    simp only [List.length_drop]
    omega

/-- C1: the quantization function `levelFromCount` (in both variants)
partitions the non-negative integers into `palette.length` contiguous
buckets: level 0 exactly on count 0, non-decreasing in the count, always
below the palette length, and every level below the palette length is
attained by some count. -/
theorem levelFromCount_partitions :
    (∀ c : Nat, levelFromCount c = 0 ↔ c = 0) ∧
    (∀ a b : Nat, a ≤ b → levelFromCount a ≤ levelFromCount b) ∧
    (∀ c : Nat, levelFromCount c < PALETTE.length) ∧
    (∀ l : Nat, l < PALETTE.length → ∃ c, levelFromCount c = l) ∧
    (∀ c : Nat, levelFromCountAlt c = 0 ↔ c = 0) ∧
    (∀ a b : Nat, a ≤ b → levelFromCountAlt a ≤ levelFromCountAlt b) ∧
    (∀ c : Nat, levelFromCountAlt c < PALETTE2.length) ∧
    (∀ l : Nat, l < PALETTE2.length → ∃ c, levelFromCountAlt c = l) := by
  have h5 : PALETTE.length = 5 := rfl
  have h4 : PALETTE2.length = 4 := rfl
  refine ⟨?_, ?_, ?_, ?_, ?_, ?_, ?_, ?_⟩
  · intro c; unfold levelFromCount; split_ifs <;> simp_all
  · intro a b h; unfold levelFromCount; split_ifs <;> omega
  · intro c; rw [h5]; unfold levelFromCount; split_ifs <;> omega
  · intro l hl
    rw [h5] at hl
    interval_cases l
    · exact ⟨0, by decide⟩
    · exact ⟨1, by decide⟩
    · exact ⟨3, by decide⟩
    · exact ⟨6, by decide⟩
    · exact ⟨10, by decide⟩
  · intro c; unfold levelFromCountAlt; split_ifs <;> simp_all
  · intro a b h; unfold levelFromCountAlt; split_ifs <;> omega
  · intro c; rw [h4]; unfold levelFromCountAlt; split_ifs <;> omega
  · intro l hl
    rw [h4] at hl
    interval_cases l
    · exact ⟨0, by decide⟩
    · exact ⟨1, by decide⟩
    · exact ⟨3, by decide⟩
    · exact ⟨7, by decide⟩

/-- C2: for every input week list of length at most 200, the normalized
week list has exactly `WEEKS = 53` entries; a short list is padded by
prepending empty weeks, and a long list keeps only its last 53 weeks. -/
theorem normalization_spec (ws : List Week) (h : ws.length ≤ 200) :
    (normalizeWeeks ws).length = WEEKS ∧
    (ws.length < WEEKS →
      normalizeWeeks ws = List.replicate (WEEKS - ws.length) emptyWeek ++ ws) ∧
    (WEEKS < ws.length → normalizeWeeks ws = ws.drop (ws.length - WEEKS)) :=
  ⟨normalizeWeeks_length ws,
   fun hlt => normalizeWeeks_le ws (Nat.le_of_lt hlt),
   fun hgt => normalizeWeeks_gt ws hgt⟩

/-- Witness for C2 at the empty week list. -/
theorem normalization_spec_witness :
    ([] : List Week).length ≤ 200 ∧
    ((normalizeWeeks ([] : List Week)).length = WEEKS ∧
      (([] : List Week).length < WEEKS →
        normalizeWeeks ([] : List Week) =
          List.replicate (WEEKS - ([] : List Week).length) emptyWeek ++ []) ∧
      (WEEKS < ([] : List Week).length →
        normalizeWeeks ([] : List Week) = ([] : List Week).drop (([] : List Week).length - WEEKS))) :=
  ⟨by decide, normalization_spec [] (by decide)⟩

/-- C3: the renderer (in both variants) is deterministic: the output string
is a function of the calendar's fields alone, so equal calendars render to
byte-identical markup. -/
theorem renderSVG_deterministic (c₁ c₂ : Calendar) (hw : c₁.weeks = c₂.weeks)
    (ht : c₁.totalContributions = c₂.totalContributions) :
    renderSVG c₁ = renderSVG c₂ ∧ renderSVG2 c₁ = renderSVG2 c₂ := by
  cases c₁
  cases c₂
  cases hw
  cases ht
  exact ⟨rfl, rfl⟩

/-- Witness for C3 at a concrete calendar. -/
theorem renderSVG_deterministic_witness :
    renderSVG ⟨[], none⟩ = renderSVG ⟨[], none⟩ ∧
    renderSVG2 ⟨[], none⟩ = renderSVG2 ⟨[], none⟩ :=
  renderSVG_deterministic ⟨[], none⟩ ⟨[], none⟩ rfl rfl

/-- C8: with the environment token absent, `main` fails with the
missing-token error without consulting the network (the result does not
depend on the fetch oracle), and the top-level handler exits non-zero. -/
theorem missing_token_fatal (f g : String → Except String Calendar) :
    mainModel none f = Except.error "Missing GH_TOKEN env var." ∧
    mainModel none f = mainModel none g ∧
    exitCode (mainModel none f) = 1 ∧ exitCode (mainModel none f) ≠ 0 :=
  ⟨rfl, rfl, rfl, by simp [mainModel, exitCode]⟩

theorem replaceAllChar_append (p : Char) (r : List Char) :
    ∀ l₁ l₂ : List Char,
      replaceAllChar p r (l₁ ++ l₂) = replaceAllChar p r l₁ ++ replaceAllChar p r l₂
  | [], l₂ => rfl
  | c :: cs, l₂ => by
    show (if c = p then r else [c]) ++ replaceAllChar p r (cs ++ l₂) =
      ((if c = p then r else [c]) ++ replaceAllChar p r cs) ++ replaceAllChar p r l₂
    rw [replaceAllChar_append p r cs l₂, List.append_assoc]

theorem svgEscapeL_cons (c : Char) (cs : List Char) :
    svgEscapeL (c :: cs) = escChar c ++ svgEscapeL cs := by
  have hstep : replaceAllChar '&' "&amp;".data (c :: cs) =
      (if c = '&' then "&amp;".data else [c]) ++ replaceAllChar '&' "&amp;".data cs := rfl
  unfold svgEscapeL
  rw [hstep, replaceAllChar_append, replaceAllChar_append, replaceAllChar_append]
  congr 1
  by_cases h1 : c = '&'
  · subst h1; decide
  · rw [if_neg h1]
    by_cases h2 : c = '<'
    · subst h2; decide
    · by_cases h3 : c = '>'
      · subst h3; decide
      · by_cases h4 : c = '"'
        · subst h4; decide
        · simp [replaceAllChar, escChar, h1, h2, h3, h4]

theorem escChar_noRaw (c : Char) :
    '<' ∉ escChar c ∧ '>' ∉ escChar c ∧ '"' ∉ escChar c := by
  unfold escChar
  split_ifs with h1 h2 h3 h4
  · exact ⟨by decide, by decide, by decide⟩
  · exact ⟨by decide, by decide, by decide⟩
  · exact ⟨by decide, by decide, by decide⟩
  · exact ⟨by decide, by decide, by decide⟩
  · exact ⟨fun hm => h2 (List.mem_singleton.mp hm).symm,
      fun hm => h3 (List.mem_singleton.mp hm).symm,
      fun hm => h4 (List.mem_singleton.mp hm).symm⟩

theorem svgEscapeL_noRaw : ∀ l : List Char,
    '<' ∉ svgEscapeL l ∧ '>' ∉ svgEscapeL l ∧ '"' ∉ svgEscapeL l
  | [] => by decide
  | c :: cs => by
    rw [svgEscapeL_cons]
    have h1 := escChar_noRaw c
    have h2 := svgEscapeL_noRaw cs
    simp only [List.mem_append]
    exact ⟨fun h => h.elim h1.1 h2.1, fun h => h.elim h1.2.1 h2.2.1,
      fun h => h.elim h1.2.2 h2.2.2⟩

theorem ampWellFormed_append : ∀ a b : List Char,
    ampWellFormed a = true → ampWellFormed b = true → ampWellFormed (a ++ b) = true
  | [], b, _, hb => hb
  | c :: cs, b, ha, hb => by
    simp only [ampWellFormed, Bool.and_eq_true] at ha
    simp only [List.cons_append, ampWellFormed, Bool.and_eq_true]
    refine ⟨?_, ampWellFormed_append cs b ha.2 hb⟩
    by_cases hc : c = '&'
    · rw [if_pos hc] at ha ⊢
      rcases List.any_eq_true.mp ha.1 with ⟨e, he, hpre⟩
      refine List.any_eq_true.mpr ⟨e, he, ?_⟩
      rcases (isPrefixOf_iff_ex e (c :: cs)).mp hpre with ⟨t, ht⟩
      exact (isPrefixOf_iff_ex e (c :: cs ++ b)).mpr ⟨t ++ b, by simp [← List.cons_append, ht]⟩
    · rw [if_neg hc]

theorem escChar_amp (c : Char) : ampWellFormed (escChar c) = true := by
  unfold escChar
  split_ifs with h1 h2 h3 h4
  · decide
  · decide
  · decide
  · decide
  · simp [ampWellFormed, h1]

theorem svgEscapeL_amp : ∀ l : List Char, ampWellFormed (svgEscapeL l) = true
  | [] => by decide
  | c :: cs => by
    rw [svgEscapeL_cons]
    exact ampWellFormed_append _ _ (escChar_amp c) (svgEscapeL_amp cs)

/-- C4: for every input string containing one of the reserved characters,
the output of `svgEscape` contains no raw `<`, `>` or `"`, and every
remaining `&` begins one of the entities `&amp;`, `&lt;`, `&gt;`, `&quot;`. -/
theorem svgEscape_escapes (s : String)
    (h : ∃ c ∈ s.data, c ∈ ['&', '<', '>', '"']) :
    '<' ∉ (svgEscape s).data ∧ '>' ∉ (svgEscape s).data ∧
    '"' ∉ (svgEscape s).data ∧ ampWellFormed (svgEscape s).data = true := by
  have hd : (svgEscape s).data = svgEscapeL s.data := rfl
  rw [hd]
  exact ⟨(svgEscapeL_noRaw s.data).1, (svgEscapeL_noRaw s.data).2.1,
    (svgEscapeL_noRaw s.data).2.2, svgEscapeL_amp s.data⟩

/-- Witness for C4 at the concrete string `a<b&c>"`. -/
theorem svgEscape_escapes_witness :
    (∃ c ∈ ("a<b&c>\"").data, c ∈ ['&', '<', '>', '"']) ∧
    ('<' ∉ (svgEscape "a<b&c>\"").data ∧ '>' ∉ (svgEscape "a<b&c>\"").data ∧
      '"' ∉ (svgEscape "a<b&c>\"").data ∧
      ampWellFormed (svgEscape "a<b&c>\"").data = true) :=
  ⟨⟨'<', by decide, by decide⟩, svgEscape_escapes "a<b&c>\"" ⟨'<', by decide, by decide⟩⟩

theorem digitsAux_irrel : ∀ (n f g : Nat), n < f → n < g → digitsAux f n = digitsAux g n := by
  intro n
  induction n using Nat.strong_induction_on with
  | _ n ih =>
    intro f g hf hg
    cases f with
    | zero => omega
    | succ f =>
      cases g with
      | zero => omega
      | succ g =>
        by_cases h : n < 10
        · simp [digitsAux, h]
        · simp only [digitsAux, h, if_false]
          congr 1
          exact ih (n / 10) (by omega) f g (by omega) (by omega)

theorem jsDigits_eq (n : Nat) :
    jsDigits n = if n < 10 then [Nat.digitChar n]
      else jsDigits (n / 10) ++ [Nat.digitChar (n % 10)] := by
  show digitsAux (n + 1) n = _
  by_cases h : n < 10
  · simp [digitsAux, h]
  · simp only [digitsAux, h, if_false]
    congr 1
    exact digitsAux_irrel (n / 10) n (n / 10 + 1) (by omega) (by omega)

theorem jsDigits_last (n : Nat) : ∃ p, jsDigits n = p ++ [Nat.digitChar (n % 10)] := by
  rw [jsDigits_eq]
  by_cases h : n < 10
  · refine ⟨[], ?_⟩
    rw [if_pos h]
    simp [Nat.mod_eq_of_lt h]
  · exact ⟨jsDigits (n / 10), by rw [if_neg h]⟩

theorem digitChar_inj :
    ∀ a, a < 10 → ∀ b, b < 10 → Nat.digitChar a = Nat.digitChar b → a = b := by decide

theorem one_digit_suffix (a n : Nat) (ha : a < 10) :
    (∃ t, jsDigits n = t ++ [Nat.digitChar a]) ↔ n % 10 = a := by
  constructor
  · rintro ⟨t, ht⟩
    rcases jsDigits_last n with ⟨p, hp⟩
    rw [hp] at ht
    have hlast := congrArg List.getLast? ht
    rw [List.getLast?_concat, List.getLast?_concat] at hlast
    exact digitChar_inj _ (Nat.mod_lt n (by omega)) _ ha (Option.some.inj hlast)
  · rintro rfl
    exact jsDigits_last n

theorem two_digit_suffix (a b n : Nat) (ha : a < 10) (hb : b < 10) :
    (∃ t, jsDigits n = t ++ [Nat.digitChar a, Nat.digitChar b]) ↔
      (10 ≤ n ∧ n / 10 % 10 = a ∧ n % 10 = b) := by
  by_cases h : n < 10
  · constructor
    · rintro ⟨t, ht⟩
      rw [jsDigits_eq, if_pos h] at ht
      have hlen := congrArg List.length ht
      simp at hlen
    · rintro ⟨h10, -, -⟩
      exact absurd h10 (by omega)
  · rw [jsDigits_eq, if_neg h]
    constructor
    · rintro ⟨t, ht⟩
      have h2 : jsDigits (n / 10) ++ [Nat.digitChar (n % 10)] =
          (t ++ [Nat.digitChar a]) ++ [Nat.digitChar b] := by
        rw [ht]
        simp
      have hlast := congrArg List.getLast? h2
      rw [List.getLast?_concat, List.getLast?_concat] at hlast
      have hbEq : n % 10 = b :=
        digitChar_inj _ (Nat.mod_lt n (by omega)) _ hb (Option.some.inj hlast)
      have hdrop := congrArg List.dropLast h2
      rw [List.dropLast_concat, List.dropLast_concat] at hdrop
      have haEq : n / 10 % 10 = a := (one_digit_suffix a (n / 10) ha).mp ⟨t, hdrop⟩
      exact ⟨by omega, haEq, hbEq⟩
    · rintro ⟨h10, hA, hB⟩
      rcases (one_digit_suffix a (n / 10) ha).mpr hA with ⟨t, ht⟩
      refine ⟨t, ?_⟩
      rw [ht, hB]
      simp

theorem bool_eq_decide {P : Prop} [Decidable P] :
    ∀ {b : Bool}, (b = true ↔ P) → b = decide P
  | true, h => (decide_eq_true (h.mp rfl)).symm
  | false, h => by
    by_cases hP : P
    · exact absurd (h.mpr hP) (by simp)
    · exact (decide_eq_false hP).symm

theorem ordinal_eq (n : Nat) :
    ordinal n = String.mk (jsDigits n ++ (ordSuffixSpec n).data) := by
  have h11 : ("11".data.isSuffixOf (jsDigits n)) = decide (n % 100 = 11) := by
    refine bool_eq_decide ?_
    rw [isSuffixOf_iff_ex,
      (by decide : ("11".data : List Char) = [Nat.digitChar 1, Nat.digitChar 1]),
      two_digit_suffix 1 1 n (by omega) (by omega)]
    omega
  have h12 : ("12".data.isSuffixOf (jsDigits n)) = decide (n % 100 = 12) := by
    refine bool_eq_decide ?_
    rw [isSuffixOf_iff_ex,
      (by decide : ("12".data : List Char) = [Nat.digitChar 1, Nat.digitChar 2]),
      two_digit_suffix 1 2 n (by omega) (by omega)]
    omega
  have h13 : ("13".data.isSuffixOf (jsDigits n)) = decide (n % 100 = 13) := by
    refine bool_eq_decide ?_
    rw [isSuffixOf_iff_ex,
      (by decide : ("13".data : List Char) = [Nat.digitChar 1, Nat.digitChar 3]),
      two_digit_suffix 1 3 n (by omega) (by omega)]
    omega
  have hs1 : ("1".data.isSuffixOf (jsDigits n)) = decide (n % 10 = 1) := by
    refine bool_eq_decide ?_
    rw [isSuffixOf_iff_ex, (by decide : ("1".data : List Char) = [Nat.digitChar 1]),
      one_digit_suffix 1 n (by omega)]
  have hs2 : ("2".data.isSuffixOf (jsDigits n)) = decide (n % 10 = 2) := by
    refine bool_eq_decide ?_
    rw [isSuffixOf_iff_ex, (by decide : ("2".data : List Char) = [Nat.digitChar 2]),
      one_digit_suffix 2 n (by omega)]
  have hs3 : ("3".data.isSuffixOf (jsDigits n)) = decide (n % 10 = 3) := by
    refine bool_eq_decide ?_
    rw [isSuffixOf_iff_ex, (by decide : ("3".data : List Char) = [Nat.digitChar 3]),
      one_digit_suffix 3 n (by omega)]
  simp only [ordinal, ordSuffixSpec, h11, h12, h13, hs1, hs2, hs3,
    Bool.or_eq_true, decide_eq_true_eq]
  split_ifs <;> rfl

/-- C5: `ordinal` maps day numbers to strings with the correct English
ordinal suffix: in general the suffix is `th` for numbers ending in 11, 12
or 13, otherwise `st`, `nd`, `rd` for last digit 1, 2, 3, and `th` for all
other numbers; in particular on the spec's examples. -/
theorem ordinal_correct :
    (∀ n : Nat, ordinal n = String.mk (jsDigits n ++ (ordSuffixSpec n).data)) ∧
    ordinal 1 = "1st" ∧ ordinal 2 = "2nd" ∧ ordinal 3 = "3rd" ∧
    ordinal 4 = "4th" ∧ ordinal 11 = "11th" ∧ ordinal 12 = "12th" ∧
    ordinal 13 = "13th" ∧ ordinal 21 = "21st" :=
  ⟨ordinal_eq, by decide, by decide, by decide, by decide, by decide,
    by decide, by decide, by decide⟩

theorem renderSVG_decomp (cal : Calendar) :
    renderSVG cal = svgOpen ++
      (svgEscape (summaryText (cal.totalContributions.getD 0)) ++
        (afterSummary ++ (rectsFor (normalizeWeeks cal.weeks) ++ afterRects))) := by
  show svgOpen ++ svgEscape (summaryText (cal.totalContributions.getD 0)) ++
      afterSummary ++ rectsFor (normalizeWeeks cal.weeks) ++ afterRects = _
  rw [String.append_assoc, String.append_assoc, String.append_assoc]

theorem renderSVG2_decomp (cal : Calendar) :
    renderSVG2 cal = svgOpen2 ++
      (rectsFor2 (normalizeWeeks cal.weeks) ++ "\n  </g>\n</svg>\n") := by
  show svgOpen2 ++ rectsFor2 (normalizeWeeks cal.weeks) ++ "\n  </g>\n</svg>\n" = _
  rw [String.append_assoc]

/-- C7: the width and height of the rendered markup are a pure function of
the compiled-in layout constants: every calendar's output (in both variants)
begins with the same data-independent prefix `svgOpen` / `svgOpen2`, and that
prefix carries the `width`, `height` and `viewBox` attributes built from the
constant dimensions (707×161 and 707×109). -/
theorem dimensions_constant :
    (∀ cal : Calendar, ∃ rest : String, renderSVG cal = svgOpen ++ rest) ∧
    (∀ cal : Calendar, ∃ rest : String, renderSVG2 cal = svgOpen2 ++ rest) ∧
    containsStr svgOpen
      ("width=\"" ++ jsStr svgWidth ++ "\" height=\"" ++ jsStr svgHeight ++ "\"") = true ∧
    containsStr svgOpen
      ("viewBox=\"0 0 " ++ jsStr svgWidth ++ " " ++ jsStr svgHeight ++ "\"") = true ∧
    containsStr svgOpen2
      ("width=\"" ++ jsStr gridWidth ++ "\" height=\"" ++ jsStr svgHeight2 ++ "\"") = true ∧
    containsStr svgOpen2
      ("viewBox=\"0 0 " ++ jsStr gridWidth ++ " " ++ jsStr svgHeight2 ++ "\"") = true ∧
    svgWidth = 707 ∧ svgHeight = 161 ∧ svgHeight2 = 109 :=
  ⟨fun cal => ⟨_, renderSVG_decomp cal⟩,
   fun cal => ⟨_, renderSVG2_decomp cal⟩,
   by decide, by decide, by decide, by decide, rfl, rfl, rfl⟩

theorem getLast?_cons_or {α : Type} (a : α) (l : List α) :
    (a :: l).getLast? = l.getLast?.or (some a) := by
  cases l with
  | nil => rfl
  | cons b bs =>
    rw [List.getLast?_cons_cons]
    rcases hb : (b :: bs).getLast? with _ | v
    · have hs := List.getLast?_isSome.mpr (List.cons_ne_nil b bs)
      rw [hb] at hs
      simp at hs
    · rfl

theorem resolveDay_foldl_filter :
    ∀ (days : List ContributionDay) (y : Nat) (acc : Option ContributionDay),
      days.foldl (fun a d => if d.weekday = y then some d else a) acc =
        ((days.filter (fun e => e.weekday == y)).getLast?).or acc
  | [], y, acc => by simp
  | e :: es, y, acc => by
    simp only [List.foldl_cons]
    rw [resolveDay_foldl_filter es y _]
    by_cases he : e.weekday = y
    · rw [if_pos he, List.filter_cons_of_pos (by simp [he]), getLast?_cons_or,
        Option.or_assoc]
      rfl
    · rw [if_neg he, List.filter_cons_of_neg (by simp [he])]

theorem resolveDay_eq_filter_getLast (days : List ContributionDay) (y : Nat) :
    resolveDay days y = (days.filter (fun e => e.weekday == y)).getLast? := by
  unfold resolveDay
  rw [resolveDay_foldl_filter]
  exact Option.or_none

/-- C9: the resolved day record of a cell is always the last entry of the
week's day list whose weekday index equals the row (the last element of the
weekday-filtered list); in particular for any day list of the shape
`pre ++ d :: mid` where `d` matches the weekday and nothing after it does,
the resolved record is `d` — whatever earlier (duplicate) entries `pre`
holds — and the rendered cell is the cell of `d`. -/
theorem duplicate_weekday_last_wins (x y : Nat) (pre mid : List ContributionDay)
    (d : ContributionDay) (hd : d.weekday = y)
    (hmid : ∀ e ∈ mid, e.weekday ≠ y) :
    resolveDay (pre ++ d :: mid) y = some d ∧
    renderCell x y (resolveDay (pre ++ d :: mid) y) = renderCell x y (some d) ∧
    (∀ days : List ContributionDay,
      resolveDay days y = (days.filter (fun e => e.weekday == y)).getLast?) := by
  have hmidnil : mid.filter (fun e => e.weekday == y) = [] :=
    (List.filter_eq_nil_iff).mpr (by simpa using hmid)
  have hres : resolveDay (pre ++ d :: mid) y = some d := by
    rw [resolveDay_eq_filter_getLast, List.filter_append,
      List.filter_cons_of_pos (by simp [hd]), hmidnil]
    exact List.getLast?_concat _
  exact ⟨hres, by rw [hres], fun days => resolveDay_eq_filter_getLast days y⟩

/-- Witness for C9 at a concrete week holding an earlier duplicate of
weekday 2 and a later entry of another weekday after the last duplicate. -/
theorem duplicate_weekday_last_wins_witness :
    resolveDay ([⟨"2024-03-03", 7, 2⟩] ++ ⟨"2024-03-05", 4, 2⟩ :: [⟨"2024-03-06", 9, 5⟩]) 2 =
        some ⟨"2024-03-05", 4, 2⟩ ∧
    renderCell 0 2
        (resolveDay ([⟨"2024-03-03", 7, 2⟩] ++ ⟨"2024-03-05", 4, 2⟩ :: [⟨"2024-03-06", 9, 5⟩]) 2) =
      renderCell 0 2 (some ⟨"2024-03-05", 4, 2⟩) ∧
    (∀ days : List ContributionDay,
      resolveDay days 2 = (days.filter (fun e => e.weekday == 2)).getLast?) :=
  duplicate_weekday_last_wins 0 2 [⟨"2024-03-03", 7, 2⟩] [⟨"2024-03-06", 9, 5⟩]
    ⟨"2024-03-05", 4, 2⟩ (by decide) (by decide)

theorem renderCell_no_title (x y : Nat) (day : Option ContributionDay)
    (hdate : cellDate day = "") :
    renderCell x y day = bareRect x y (PALETTE.getD (levelFromCount (cellCount day)) "") := by
  simp only [renderCell, bareRect, hdate, titleMarkup, if_pos]

/-- C10 (amended): for every cell whose resolved day record is absent or
whose date string is empty, the emitted rect element has an empty title slot
(no `title` child), the rect is still emitted with the fill
`PALETTE[levelFromCount count]` — which is the level-0 fill whenever the
record is absent — and `formatTooltipDate` returns `""` on an empty date. -/
theorem absent_or_empty_date_cell (x y : Nat) (day : Option ContributionDay)
    (h : day = none ∨ ∃ d, day = some d ∧ d.date = "") :
    renderCell x y day = bareRect x y (PALETTE.getD (levelFromCount (cellCount day)) "") ∧
    (day = none →
      PALETTE.getD (levelFromCount (cellCount day)) "" = PALETTE.getD 0 "") ∧
    containsStr (renderCell 0 0 none) "<title>" = false ∧
    (∀ c : Nat, formatTooltipDate "" c = "") := by
  have hdate : cellDate day = "" := by
    rcases h with rfl | ⟨d, rfl, hd⟩
    · rfl
    · exact hd
  refine ⟨renderCell_no_title x y day hdate, ?_, by decide, fun c => by simp [formatTooltipDate]⟩
  rintro rfl
  rfl

/-- Witness for C10 at a concrete day record with an empty date. -/
theorem absent_or_empty_date_cell_witness :
    ((some ⟨"", 5, 0⟩ : Option ContributionDay) = none ∨
      ∃ d, (some ⟨"", 5, 0⟩ : Option ContributionDay) = some d ∧ d.date = "") ∧
    (renderCell 0 0 (some ⟨"", 5, 0⟩) =
        bareRect 0 0 (PALETTE.getD (levelFromCount (cellCount (some ⟨"", 5, 0⟩))) "") ∧
      ((some ⟨"", 5, 0⟩ : Option ContributionDay) = none →
        PALETTE.getD (levelFromCount (cellCount (some ⟨"", 5, 0⟩))) "" = PALETTE.getD 0 "") ∧
      containsStr (renderCell 0 0 none) "<title>" = false ∧
      (∀ c : Nat, formatTooltipDate "" c = "")) :=
  ⟨Or.inr ⟨⟨"", 5, 0⟩, rfl, rfl⟩,
   absent_or_empty_date_cell 0 0 (some ⟨"", 5, 0⟩) (Or.inr ⟨⟨"", 5, 0⟩, rfl, rfl⟩)⟩

/-- C10 counterexample to the claim as stated: the cell of a present day
record with an empty date string but a positive count is emitted, yet its
fill is not the level-0 color, contradicting "the rect itself is still
emitted with the level-0 fill" for such cells. -/
theorem absent_or_empty_date_cell_counterexample :
    containsStr (renderCell 0 0 (some ⟨"", 5, 0⟩))
      ("fill=\"" ++ PALETTE.getD 0 "" ++ "\"") = false := by decide

theorem containsStr_renderSVG (cal : Calendar) (m : String)
    (h : containsStr (rectsFor (normalizeWeeks cal.weeks)) m = true) :
    containsStr (renderSVG cal) m = true := by
  rw [renderSVG_decomp cal]
  exact containsStr_append_of_right _ (containsStr_append_of_right _
    (containsStr_append_of_right _ (containsStr_append_of_left _ h)))

/-- C6: rendering a calendar whose only populated cell is
`{date: "2024-03-05", contributionCount: 3, weekday: 2}` produces markup
containing the tooltip `<title>3 contributions on March 5th</title>`, and
that tooltip sits inside a rect whose fill attribute is
`PALETTE[levelFromCount 3]`. -/
theorem end_to_end_single_day (total : Option Nat) :
    containsStr (renderSVG ⟨[⟨[⟨"2024-03-05", 3, 2⟩]⟩], total⟩)
      "<title>3 contributions on March 5th</title>" = true ∧
    containsStr (renderSVG ⟨[⟨[⟨"2024-03-05", 3, 2⟩]⟩], total⟩)
      ("fill=\"" ++ PALETTE.getD (levelFromCount 3) "" ++
        "\">\n    <title>3 contributions on March 5th</title>") = true := by
  have hElem : (normalizeWeeks [(⟨[⟨"2024-03-05", 3, 2⟩]⟩ : Week)]).getD 52 emptyWeek =
      ⟨[⟨"2024-03-05", 3, 2⟩]⟩ := by
    rw [normalizeWeeks_le _ (by decide)]
    decide
  have h1 : containsStr (rectsFor (normalizeWeeks [(⟨[⟨"2024-03-05", 3, 2⟩]⟩ : Week)]))
      (weekRects 52 ((normalizeWeeks [(⟨[⟨"2024-03-05", 3, 2⟩]⟩ : Week)]).getD 52 emptyWeek)) =
      true :=
    containsStr_joinMap (by decide : (52 : Nat) ∈ List.range WEEKS)
  rw [hElem] at h1
  have h2 : containsStr (weekRects 52 (⟨[⟨"2024-03-05", 3, 2⟩]⟩ : Week))
      (renderCell 52 2
        (resolveDay (⟨[⟨"2024-03-05", 3, 2⟩]⟩ : Week).contributionDays 2)) = true :=
    containsStr_joinMap (by decide : (2 : Nat) ∈ List.range DAYS)
  have h3 : containsStr
      (renderCell 52 2
        (resolveDay (⟨[⟨"2024-03-05", 3, 2⟩]⟩ : Week).contributionDays 2))
      "<title>3 contributions on March 5th</title>" = true := by decide
  have h4 : containsStr
      (renderCell 52 2
        (resolveDay (⟨[⟨"2024-03-05", 3, 2⟩]⟩ : Week).contributionDays 2))
      ("fill=\"" ++ PALETTE.getD (levelFromCount 3) "" ++
        "\">\n    <title>3 contributions on March 5th</title>") = true := by decide
  constructor
  · exact containsStr_renderSVG _ _ (containsStr_trans h1 (containsStr_trans h2 h3))
  · exact containsStr_renderSVG _ _ (containsStr_trans h1 (containsStr_trans h2 h4))
